import Mathlib

/-!
Shallow embedding of the polymarket trading bot's core subsystems:
the risk evaluator (`RiskManager`), the atomic multi-leg executor
(`OrderExecutor`), the opportunity detector (`ArbitrageDetector`),
the rolling price window (`PriceHistory`) and the quote accessor
(`MarketDataService.getBestPrices`).

Numbers are modelled as rationals (the TypeScript code uses IEEE doubles;
every computation the claims touch is exact at the inputs considered).
Strings carried only for logging (formatted descriptions, error detail
interpolation) are elided or replaced by fixed tags, as noted at each
definition.  `Date.now()` is passed in explicitly as an integer `now`.
-/

/-! ## Shared data model (src/types) -/

inductive OrderSide
  | BUY
  | SELL
deriving DecidableEq, Repr

inductive OrderType
  | MARKET
  | LIMIT
deriving DecidableEq, Repr

inductive RiskLevel
  | LOW
  | MEDIUM
  | HIGH
deriving DecidableEq, Repr

inductive ArbitrageStrategy
  | PRICE_IMBALANCE
  | CROSS_MARKET
  | TIME_BASED
deriving DecidableEq, Repr

inductive OrderStatus
  | PENDING
  | FILLED
  | PARTIALLY_FILLED
  | CANCELLED
  | FAILED
deriving DecidableEq, Repr

/-- One order-book level `{price, size}`. -/
structure BookLevel where
  price : ℚ
  size : ℚ
deriving DecidableEq, Repr

/-- An order book for one token (marketId/timestamp fields elided: no claim reads them). -/
structure OrderBook where
  bids : List BookLevel
  asks : List BookLevel
deriving DecidableEq, Repr

/-- Best bid/ask pair as returned by `MarketDataService.getBestPrices`. -/
structure Quote where
  bid : ℚ
  ask : ℚ
deriving DecidableEq, Repr

/-- One trade leg. -/
structure Trade where
  marketId : String
  tokenId : String
  side : OrderSide
  type : OrderType
  price : ℚ
  amount : ℚ
deriving DecidableEq, Repr

/-- A market token; only the fields the embedded code reads are kept. -/
structure Token where
  tokenId : String
  outcome : String
  price : ℚ
deriving DecidableEq, Repr

structure Market where
  id : String
  question : String
  category : String
  tokens : List Token
deriving DecidableEq, Repr

/-- An arbitrage opportunity.  The human-readable `description` string of the
source (built with `toFixed` formatting, used only for display) is elided. -/
structure Opportunity where
  id : String
  strategy : ArbitrageStrategy
  marketId : String
  expectedProfit : ℚ
  profitPercentage : ℚ
  requiredCapital : ℚ
  trades : List Trade
  timestamp : ℤ
  risk : RiskLevel
deriving DecidableEq, Repr

structure Balance where
  usdc : ℚ
  matic : ℚ
deriving DecidableEq, Repr

/-- Per-leg execution result. -/
structure OrderResult where
  orderId : String
  status : OrderStatus
  filledAmount : ℚ
  averagePrice : ℚ
  error : Option String
deriving DecidableEq, Repr

/-! ## RiskManager (src/src/trading/RiskManager.ts) -/

namespace RiskManager

/-- Constructor parameters of `RiskManager`. -/
structure Config where
  maxPositionSize : ℚ
  minPositionSize : ℚ
  dailyMaxLoss : ℚ
  maxConcurrentPositions : ℕ
  enableRiskManagement : Bool
deriving DecidableEq, Repr

/-- The distinct rejection branches of `evaluateOpportunity`.  The source
returns Chinese strings with interpolated amounts; each constructor stands for
one of those string templates, in source order. -/
inductive Reason
  | signalOnly
  | dailyLossLimit
  | insufficientBalance
  | belowMinPosition
  | maxPositions
  | highRiskLowProfit
deriving DecidableEq, Repr

structure EvalResult where
  approved : Bool
  reason : Option Reason
  adjustedSize : Option ℚ
deriving DecidableEq, Repr

/-- `RiskManager.evaluateOpportunity`, as a function of the mutable state it
reads (`dailyPnL`, `positions.length`) and its inputs.  Check 6 of the source
(position percentage over 20% of balance) only emits a log line and never
changes the returned value, so it is omitted. -/
def evaluateOpportunity (cfg : Config) (dailyPnL : ℚ) (positionsCount : ℕ)
    (opp : Opportunity) (balance : Balance) : EvalResult :=
  if opp.trades = [] then
    ⟨false, some .signalOnly, none⟩
  else if cfg.enableRiskManagement = false then
    ⟨true, none, some opp.requiredCapital⟩
  else if |dailyPnL| ≥ cfg.dailyMaxLoss then
    ⟨false, some .dailyLossLimit, none⟩
  else if balance.usdc < opp.requiredCapital then
    ⟨false, some .insufficientBalance, none⟩
  else if opp.requiredCapital > cfg.maxPositionSize then
    ⟨true, none, some cfg.maxPositionSize⟩
  else if opp.requiredCapital < cfg.minPositionSize then
    ⟨false, some .belowMinPosition, none⟩
  else if positionsCount ≥ cfg.maxConcurrentPositions then
    ⟨false, some .maxPositions, none⟩
  else if opp.risk = RiskLevel.HIGH ∧ opp.profitPercentage < 5 then
    ⟨false, some .highRiskLowProfit, none⟩
  else
    ⟨true, none, some opp.requiredCapital⟩

/-- The `TradingStats` record. -/
structure TradingStats where
  totalTrades : ℕ
  successfulTrades : ℕ
  failedTrades : ℕ
  totalProfit : ℚ
  totalLoss : ℚ
  netProfit : ℚ
  winRate : ℚ
  averageProfit : ℚ
  largestProfit : ℚ
  largestLoss : ℚ
  dailyPnL : ℚ
deriving DecidableEq, Repr

/-- The mutable state of `RiskManager` that `recordTrade` touches. -/
structure RecordState where
  dailyPnL : ℚ
  stats : TradingStats
deriving DecidableEq, Repr

/-- `RiskManager.recordTrade`, as a state-transition function. -/
def recordTrade (s : RecordState) (profit : ℚ) (success : Bool) : RecordState :=
  let st := s.stats
  let st := { st with totalTrades := st.totalTrades + 1 }
  let (st, dailyPnL) :=
    if success then
      let st := { st with successfulTrades := st.successfulTrades + 1 }
      let st :=
        if profit > 0 then
          { st with totalProfit := st.totalProfit + profit
                    largestProfit := max st.largestProfit profit }
        else
          { st with totalLoss := st.totalLoss + |profit|
                    largestLoss := max st.largestLoss |profit| }
      (st, s.dailyPnL + profit)
    else
      ({ st with failedTrades := st.failedTrades + 1 }, s.dailyPnL)
  let netProfit := st.totalProfit - st.totalLoss
  let winRate :=
    if st.totalTrades > 0 then
      ((st.successfulTrades : ℚ) / (st.totalTrades : ℚ)) * 100
    else 0
  let averageProfit :=
    if st.successfulTrades > 0 then netProfit / (st.successfulTrades : ℚ) else 0
  { dailyPnL := dailyPnL
    stats := { st with netProfit := netProfit, winRate := winRate,
                       averageProfit := averageProfit, dailyPnL := dailyPnL } }

end RiskManager

/-! ## MarketDataService (src/unnamed/part_002) -/

namespace MarketDataService

/-- Maximum of a list of prices, as `Math.max(...)` over a nonempty list. -/
def maxOf : List ℚ → ℚ
  | [] => 0
  | x :: xs => xs.foldl max x

/-- Minimum of a list of prices, as `Math.min(...)` over a nonempty list. -/
def minOf : List ℚ → ℚ
  | [] => 0
  | x :: xs => xs.foldl min x

/-- `MarketDataService.getBestPrices`.  The argument is the result of
`getOrderBook(tokenId)` (`null` = book unavailable). -/
def getBestPrices (orderBook : Option OrderBook) : Option Quote :=
  match orderBook with
  | none => none
  | some book =>
    let bestBid := if book.bids.length > 0 then maxOf (book.bids.map (·.price)) else 0
    let bestAsk := if book.asks.length > 0 then minOf (book.asks.map (·.price)) else 1
    some ⟨bestBid, bestAsk⟩

end MarketDataService

/-- The mid-price `(bid + ask) / 2` computed inline wherever a strategy
consumes mid-prices (`getMarketPrices`, `detectPriceImbalance`,
`checkNestedMarketArbitrage`, `checkSimilarMarketArbitrage`, `detectTimeBased`). -/
def midPrice (q : Quote) : ℚ :=
  (q.bid + q.ask) / 2

/-! ## PriceHistory (src/unnamed/part_001)

The class keeps a `Map` from token id to a sample list; every claim is
per-instrument, so the embedding works on the sample list of one token
(the `Map` lookup is elided).  `Date.now()` is the explicit `now` argument. -/

namespace PriceHistory

structure PriceRecord where
  price : ℚ
  timestamp : ℤ
deriving DecidableEq, Repr

def MAX_HISTORY_SIZE : ℕ := 60

def HISTORY_WINDOW_MS : ℤ := 30 * 60 * 1000

/-- JavaScript `array.slice(-n)`: keep the last `n` elements. -/
def sliceLast (n : ℕ) (l : List PriceRecord) : List PriceRecord :=
  l.drop (l.length - n)

/-- `PriceHistory.cleanOldRecords`: drop samples at or past the 30-minute
horizon, then truncate to the most recent 60. -/
def cleanOldRecords (records : List PriceRecord) (now : ℤ) : List PriceRecord :=
  let cutoff := now - HISTORY_WINDOW_MS
  sliceLast MAX_HISTORY_SIZE (records.filter (fun r => r.timestamp > cutoff))

/-- `PriceHistory.record`: append the sample, then clean. -/
def record (records : List PriceRecord) (price : ℚ) (now : ℤ) : List PriceRecord :=
  cleanOldRecords (records ++ [⟨price, now⟩]) now

/-- Mean of a price list (`prices.reduce((a,b) => a+b, 0) / prices.length`).
Division by zero yields 0 in ℚ; the callers guard emptiness. -/
def meanOf (prices : List ℚ) : ℚ :=
  prices.sum / (prices.length : ℚ)

/-- Population variance as computed in `getZScore`/`getStats`. -/
def varOf (prices : List ℚ) : ℚ :=
  ((prices.map (fun p => (p - meanOf prices) ^ 2)).sum) / (prices.length : ℚ)

/-- `PriceHistory.getZScore`.  The source computes `stdDev = Math.sqrt(variance)`
and returns `null` below 10 samples, `0` for `stdDev < 0.001`, else
`(currentPrice − mean) / stdDev`; the square root forces values into ℝ. -/
noncomputable def getZScore (records : List PriceRecord) (currentPrice : ℚ) : Option ℝ :=
  if records.length < 10 then
    none
  else
    let prices := records.map (·.price)
    let mean := meanOf prices
    let stdDev : ℝ := Real.sqrt (varOf prices : ℚ)
    if stdDev < 1 / 1000 then some 0
    else some (((currentPrice : ℝ) - (mean : ℝ)) / stdDev)

/-- The statistics summary returned by `PriceHistory.getStats` (the `stdDev`
field, unused by any claim, is returned as the variance's square root in ℝ
elsewhere; here only the fields claims read are kept: count, mean, min, max). -/
structure StatsSummary where
  count : ℕ
  mean : Option ℚ
  min : Option ℚ
  max : Option ℚ
deriving DecidableEq, Repr

/-- `PriceHistory.getStats` (modulo the elided `stdDev` field). -/
def getStats (records : List PriceRecord) : StatsSummary :=
  if records.length = 0 then
    ⟨0, none, none, none⟩
  else
    let prices := records.map (·.price)
    ⟨prices.length, some (meanOf prices),
      some (MarketDataService.minOf prices), some (MarketDataService.maxOf prices)⟩

end PriceHistory

/-! ## ArbitrageDetector (src/src/arbitrage/ArbitrageDetector.ts)

The detector's per-market strategy bodies are embedded as pure functions of
a quote environment `env : String → Option Quote` standing for
`marketDataService.getBestPrices(tokenId)`, and return the list of
opportunities that the call appends via `addOpportunity`.  A thrown
JavaScript exception (e.g. `tokens[0]` on an empty token list) is caught by
the strategy's `try`/`catch` and yields no opportunities, modelled by
returning `[]`. -/

namespace ArbitrageDetector

def TRADING_FEE_RATE : ℚ := 0.01

/-- `ArbitrageDetector.calculateRisk`. -/
def calculateRisk (profitPercentage capital : ℚ) : RiskLevel :=
  if profitPercentage ≥ 5 ∧ capital ≤ 50 then .LOW
  else if profitPercentage ≥ 3 ∨ capital ≤ 100 then .MEDIUM
  else .HIGH

/-- `ArbitrageDetector.detectPriceImbalance`: the buy-both branch on best
asks and the mid-price signal branch, in `addOpportunity` order. -/
def detectPriceImbalance (env : String → Option Quote) (minProfitThreshold : ℚ)
    (now : ℤ) (market : Market) : List Opportunity :=
  match market.tokens with
  | yesToken :: noToken :: _ =>
    if yesToken.tokenId = "" ∨ noToken.tokenId = "" then []
    else
      match env yesToken.tokenId, env noToken.tokenId with
      | some yesPrices, some noPrices =>
        let buyCost := yesPrices.ask + noPrices.ask
        let buyOpps :=
          if buyCost < 1 then
            let totalFees := buyCost * TRADING_FEE_RATE * 2
            let grossProfit := 1 - buyCost
            let netProfit := grossProfit - totalFees
            let profitPercentage := netProfit / buyCost * 100
            if profitPercentage ≥ minProfitThreshold ∧ netProfit > 0 then
              [{ id := market.id ++ "_imbalance_buy_" ++ toString now
                 strategy := .PRICE_IMBALANCE
                 marketId := market.id
                 expectedProfit := netProfit
                 profitPercentage := profitPercentage
                 requiredCapital := buyCost
                 trades := [
                   { marketId := market.id, tokenId := yesToken.tokenId,
                     side := .BUY, type := .MARKET, price := yesPrices.ask, amount := 1 },
                   { marketId := market.id, tokenId := noToken.tokenId,
                     side := .BUY, type := .MARKET, price := noPrices.ask, amount := 1 }]
                 timestamp := now
                 risk := calculateRisk profitPercentage buyCost }]
            else []
          else []
        let midYes := (yesPrices.bid + yesPrices.ask) / 2
        let midNo := (noPrices.bid + noPrices.ask) / 2
        let midCost := midYes + midNo
        let signalOpps :=
          if midCost < 1 then
            let profit := 1 - midCost
            let profitPercentage := profit / midCost * 100
            if profitPercentage ≥ minProfitThreshold then
              [{ id := market.id ++ "_imbalance_signal_" ++ toString now
                 strategy := .PRICE_IMBALANCE
                 marketId := market.id
                 expectedProfit := profit
                 profitPercentage := profitPercentage
                 requiredCapital := midCost
                 trades := []
                 timestamp := now
                 risk := .HIGH }]
            else []
          else []
        buyOpps ++ signalOpps
      | _, _ => []
  | _ => []

/-- Character-wise ASCII lowercasing, the effect of `toLowerCase()` on the
strings considered here.  (Implemented on the character list so that proofs
can evaluate it; `String.toLower` itself is defined by well-founded recursion
over byte positions, which the kernel cannot reduce.) -/
def lowerChars (cs : List Char) : List Char :=
  cs.map Char.toLower

/-- Split a character list at every whitespace character (runs produce empty
pieces, filtered by the callers as appropriate). -/
def splitWSRaw : List Char → List Char → List (List Char)
  | [], acc => [acc.reverse]
  | c :: cs, acc =>
    if c.isWhitespace then acc.reverse :: splitWSRaw cs []
    else splitWSRaw cs (c :: acc)

/-- JavaScript `str.split(/\s+/)`: runs of whitespace are single separators,
but a leading or trailing whitespace run still contributes an empty piece
(and splitting the empty string gives `[""]`). -/
def jsSplitWS (cs : List Char) : List (List Char) :=
  if cs = [] then [[]]
  else
    let words := (splitWSRaw cs []).filter (fun t => t ≠ [])
    (if cs.head?.any Char.isWhitespace then [[]] else []) ++ words ++
      (if cs.getLast?.any Char.isWhitespace then [[]] else [])

/-- `ArbitrageDetector.calculateSimilarity`: Jaccard index of the two
lowercase whitespace-token sets. -/
def calculateSimilarity (text1 text2 : String) : ℚ :=
  let words1 := (jsSplitWS (lowerChars text1.data)).dedup
  let words2 := (jsSplitWS (lowerChars text2.data)).dedup
  let inter := words1.filter (fun w => w ∈ words2)
  let union := (words1 ++ words2).dedup
  (inter.length : ℚ) / (union.length : ℚ)

/-- Result of `parseMarketQuestion`. -/
structure QuestionInfo where
  asset : String
  direction : String
  threshold : ℚ
deriving DecidableEq, Repr

/-- `\w` character class of the source regexes. -/
def wordChar (c : Char) : Bool :=
  c.isAlphanum || c = '_'

/-- `[\d,.]` character class of the source regexes. -/
def numChar (c : Char) : Bool :=
  c.isDigit || c = ',' || c = '.'

/-- Maximal `\w+` suffix of a whitespace-delimited token (the asset capture
of pattern 2, whose `(\w+)` may start mid-token but must run to the token's
end because a mandatory `\s+` follows it). -/
def wordSuffix (t : List Char) : List Char :=
  (t.reverse.takeWhile wordChar).reverse

/-- The `\$?([\d,.]+)` capture at the start of a token: strip one optional
dollar sign, then take the maximal nonempty `[\d,.]+` prefix. -/
def numCapture (t : List Char) : Option (List Char) :=
  let t1 := if t.head? = some '$' then t.drop 1 else t
  let pre := t1.takeWhile numChar
  if pre = [] then none else some pre

/-- The direction alternatives `(hit|reach|above|below|>|<)` shared by both
source patterns. -/
def dirKeywords : List (List Char) :=
  ["hit".data, "reach".data, "above".data, "below".data, ">".data, "<".data]

/-- Match `(\w+)\s+(dir)\s+\$?([\d,.]+)k?` against three consecutive
whitespace-delimited tokens; the mandatory `\s+` separators force the
direction keyword to be a whole token and the number to start its token. -/
def matchTriple (w d n : List Char) : Option (List Char × List Char × List Char) :=
  let asset := wordSuffix w
  if asset = [] then none
  else if d ∈ dirKeywords then
    match numCapture n with
    | some num => some (asset, d, num)
    | none => none
  else none

/-- Leftmost token-aligned match of pattern 2
`/(\w+)\s+(above|below|>|<|hit|reach)\s+\$?([\d,.]+)k?/i`. -/
def findPattern2 : List (List Char) → Option (List Char × List Char × List Char)
  | w :: d :: n :: rest =>
    match matchTriple w d n with
    | some r => some r
    | none => findPattern2 (d :: n :: rest)
  | _ => none

/-- Leftmost token-aligned match of pattern 1
`/will\s+(\w+)\s+(hit|reach|above|below|>|<)\s+\$?([\d,.]+)k?/i`: the literal
`will` must end its token, and the asset `(\w+)`, being fenced by `\s+` on
both sides, must be an entire token of word characters. -/
def findPattern1 : List (List Char) → Option (List Char × List Char × List Char)
  | t :: w :: d :: n :: rest =>
    if ("will".data.reverse).isPrefixOf t.reverse ∧ w ≠ [] ∧ w.all wordChar ∧
        d ∈ dirKeywords ∧ (numCapture n).isSome then
      match numCapture n with
      | some num => some (w, d, num)
      | none => none
    else findPattern1 (w :: d :: n :: rest)
  | _ => none

/-- Digit list to a natural number. -/
def digitsToNat (cs : List Char) : ℕ :=
  cs.foldl (fun n c => n * 10 + (c.toNat - 48)) 0

/-- JavaScript `parseFloat` restricted to the strings reaching it here
(commas already removed, characters drawn from digits and dots): leading
digits, then an optional fractional part.  (`parseFloat` inputs with no
leading numeric part yield NaN, which no claim exercises.) -/
def jsParseFloat (cs : List Char) : ℚ :=
  let intDigits := cs.takeWhile Char.isDigit
  let rest := cs.drop intDigits.length
  let fracDigits :=
    if rest.head? = some '.' then (rest.drop 1).takeWhile Char.isDigit else []
  (digitsToNat intDigits : ℚ) + (digitsToNat fracDigits : ℚ) / ((10 : ℚ) ^ fracDigits.length)

/-- `s.replace(/,/g, "")`. -/
def stripCommas (cs : List Char) : List Char :=
  cs.filter (fun c => c ≠ ',')

/-- `q.includes(pat)`: `pat` occurs as a contiguous substring of `q`. -/
def containsSub : List Char → List Char → Bool
  | s, pat =>
    pat.isPrefixOf s ||
      match s with
      | [] => false
      | _ :: rest => containsSub rest pat

/-- `ArbitrageDetector.parseMarketQuestion`.  The source runs two regexes in
order over the raw question with the `/i` flag; the embedding lowercases the
question first (the patterns' literals are lowercase, and the captured asset
is uppercased / direction lowercased by the source afterwards) and matches on
whitespace-delimited tokens as justified at `matchTriple`. -/
def parseMarketQuestion (question : String) : Option QuestionInfo :=
  let q := lowerChars question.data
  let tokens := (splitWSRaw q []).filter (fun t => t ≠ [])
  let m :=
    match findPattern1 tokens with
    | some r => some r
    | none => findPattern2 tokens
  match m with
  | none => none
  | some (asset, dir, num) =>
    let threshold := jsParseFloat (stripCommas num)
    let threshold := if containsSub q (num ++ "k".data) then threshold * 1000 else threshold
    some ⟨String.mk (asset.map Char.toUpper), String.mk dir, threshold⟩

/-- `ArbitrageDetector.checkNestedMarketArbitrage`. -/
def checkNestedMarketArbitrage (env : String → Option Quote) (minProfitThreshold : ℚ)
    (now : ℤ) (market1 market2 : Market) (info1 info2 : QuestionInfo) : List Opportunity :=
  match market1.tokens.head?, market2.tokens.head? with
  | some t1, some t2 =>
    match env t1.tokenId, env t2.tokenId with
    | some prices1, some prices2 =>
      let prob1 := (prices1.bid + prices1.ask) / 2
      let prob2 := (prices2.bid + prices2.ask) / 2
      let lowerThresholdProb := if info1.threshold < info2.threshold then prob1 else prob2
      let higherThresholdProb := if info1.threshold < info2.threshold then prob2 else prob1
      if higherThresholdProb > lowerThresholdProb + 0.02 then
        let profitGap := higherThresholdProb - lowerThresholdProb
        let profitPercentage := profitGap * 100
        if profitPercentage ≥ minProfitThreshold then
          [{ id := "crossmarket_nested_" ++ market1.id ++ "_" ++ market2.id ++ "_" ++ toString now
             strategy := .CROSS_MARKET
             marketId := market1.id
             expectedProfit := profitGap
             profitPercentage := profitPercentage
             requiredCapital := 2
             trades := []
             timestamp := now
             risk := .HIGH }]
        else []
      else []
    | _, _ => []
  | _, _ => []

/-- `ArbitrageDetector.checkSimilarMarketArbitrage`. -/
def checkSimilarMarketArbitrage (env : String → Option Quote) (minProfitThreshold : ℚ)
    (now : ℤ) (market1 market2 : Market) : List Opportunity :=
  match market1.tokens.head?, market2.tokens.head? with
  | some t1, some t2 =>
    match env t1.tokenId, env t2.tokenId with
    | some prices1, some prices2 =>
      let prob1 := (prices1.bid + prices1.ask) / 2
      let prob2 := (prices2.bid + prices2.ask) / 2
      let priceDiff := |prob1 - prob2|
      let profitPercentage := priceDiff * 100
      if profitPercentage ≥ minProfitThreshold * 2 then
        [{ id := "crossmarket_similar_" ++ market1.id ++ "_" ++ market2.id ++ "_" ++ toString now
           strategy := .CROSS_MARKET
           marketId := market1.id
           expectedProfit := priceDiff
           profitPercentage := profitPercentage
           requiredCapital := 2
           trades := []
           timestamp := now
           risk := .HIGH }]
      else []
    | _, _ => []
  | _, _ => []

/-- One iteration of `ArbitrageDetector.detectCrossMarket`'s inner loop: the
opportunities the pair `(market, otherMarket)` contributes.  The guard
`if (!marketInfo) return` of the source precedes the loop and aborts every
pair for the market, so it heads this pair-level function as well. -/
def detectCrossMarketPair (env : String → Option Quote) (minProfitThreshold : ℚ)
    (now : ℤ) (market otherMarket : Market) : List Opportunity :=
  match parseMarketQuestion market.question with
  | none => []
  | some marketInfo =>
    if otherMarket.id = market.id then []
    else
      match parseMarketQuestion otherMarket.question with
      | none => []
      | some otherInfo =>
        let nested :=
          if marketInfo.asset = otherInfo.asset ∧ marketInfo.direction = otherInfo.direction ∧
              marketInfo.threshold ≠ otherInfo.threshold then
            checkNestedMarketArbitrage env minProfitThreshold now market otherMarket
              marketInfo otherInfo
          else []
        let similarity := calculateSimilarity market.question otherMarket.question
        let similar :=
          if similarity > 0.7 ∧ similarity < 0.95 then
            checkSimilarMarketArbitrage env minProfitThreshold now market otherMarket
          else []
        nested ++ similar

end ArbitrageDetector

/-! ## OrderExecutor (src/src/trading/RiskManager.ts, second file: OrderExecutor.ts)

`executeTrades` is embedded as a pure function of an execution environment
supplying the order books (for `checkFillable`), the per-leg outcome of
`clobClient.createOrder` (null or not) and the `postOrder` responses.  The
outcome records, besides the returned `OrderResult[]`, the order ids passed
to `cancelOrder` during compensation and how many orders were created and
posted, so that submission-count claims are statable.  Interpolated detail in
error strings (token ids, sizes) is elided; the fixed prefixes are kept. -/

namespace OrderExecutor

/-- `clobClient.postOrder`'s response fields read by the source. -/
structure PostResponse where
  orderID : String
  status : String
deriving DecidableEq, Repr

structure ExecEnv where
  /-- `marketDataService.getOrderBook(tokenId)` -/
  book : String → Option OrderBook
  /-- `config.maxSlippage` (percent) -/
  maxSlippage : ℚ
  /-- whether `createOrder` for leg `i` returns a non-null order -/
  createOk : ℕ → Bool
  /-- `postOrder` response for leg `i` -/
  post : ℕ → PostResponse

/-- `OrderExecutor.clampPrice` (every ℚ is finite, so the
`Number.isFinite` guard never fires in the embedding). -/
def clampPrice (price : ℚ) : ℚ :=
  min 0.999 (max 0.001 price)

/-- `OrderExecutor.applySlippageLimit`. -/
def applySlippageLimit (env : ExecEnv) (trade : Trade) : ℚ :=
  let maxSlippage := env.maxSlippage / 100
  let base := clampPrice trade.price
  if trade.side = OrderSide.BUY then clampPrice (base * (1 + maxSlippage))
  else clampPrice (base * (1 - maxSlippage))

/-- `OrderExecutor.checkFillable`: enough size at-or-better than the limit
price on the relevant side. -/
def checkFillable (env : ExecEnv) (trade : Trade) (limitPrice : ℚ) : Bool :=
  match env.book trade.tokenId with
  | none => false
  | some book =>
    if trade.side = OrderSide.BUY then
      ((book.asks.filter (fun l => l.price ≤ limitPrice)).map (·.size)).sum ≥ trade.amount
    else
      ((book.bids.filter (fun l => l.price ≥ limitPrice)).map (·.size)).sum ≥ trade.amount

/-- Character-wise ASCII uppercasing, the effect of `toUpperCase()` on the
exchange status strings (kernel-reducible, unlike `String.toUpper`). -/
def jsToUpper (s : String) : String :=
  String.mk (s.data.map Char.toUpper)

/-- `OrderExecutor.mapOrderStatus`. -/
def mapOrderStatus (status : String) : OrderStatus :=
  let u := jsToUpper status
  if u = "LIVE" then .PENDING
  else if u = "MATCHED" then .FILLED
  else if u = "PARTIAL" then .PARTIALLY_FILLED
  else if u = "CANCELLED" then .CANCELLED
  else if u = "FAILED" then .FAILED
  else .PENDING

/-- The per-leg `OrderResult`s built from the `postOrder` responses in step 4
of `executeTrades`, before any compensation. -/
def postedResults (env : ExecEnv) (trades : List Trade) : List OrderResult :=
  trades.enum.map (fun p =>
    { orderId := (env.post p.1).orderID
      status := mapOrderStatus (env.post p.1).status
      filledAmount := p.2.amount
      averagePrice := applySlippageLimit env p.2
      error := none })

/-- Fixed prefix of the pre-validation failure message thrown in step 1. -/
def depthErr : String := "前置验证失败: 订单簿深度不足"

/-- Fixed prefix of the creation failure message thrown in step 2. -/
def createErr : String := "订单创建失败"

/-- The rollback reason attached to every leg of a compensated batch. -/
def rollbackErr : String := "原子交易回滚"

/-- Outcome of one `executeTrades` call. -/
structure ExecOutcome where
  /-- the returned `OrderResult[]` -/
  results : List OrderResult
  /-- order ids passed to `cancelOrder`, in call order -/
  cancelled : List String
  /-- number of `createOrder` calls issued -/
  created : ℕ
  /-- number of `postOrder` calls issued -/
  posted : ℕ
deriving DecidableEq, Repr

/-- `OrderExecutor.executeTrades`.  Steps in source order: sequential depth
pre-validation (throwing on the first unfillable leg, before any order is
created), parallel creation (throwing if any created order is null),
parallel posting, then compensation if any posted leg maps to FAILED.  The
surrounding `try`/`catch` converts a throw into a FAILED result for every
leg with the exception message attached. -/
def executeTrades (env : ExecEnv) (trades : List Trade) : ExecOutcome :=
  if trades = [] then ⟨[], [], 0, 0⟩
  else if ¬ trades.all (fun t => checkFillable env t (applySlippageLimit env t)) then
    ⟨trades.map (fun _ =>
        { orderId := "", status := .FAILED, filledAmount := 0, averagePrice := 0,
          error := some depthErr }),
      [], 0, 0⟩
  else if ¬ (List.range trades.length).all env.createOk then
    ⟨trades.map (fun _ =>
        { orderId := "", status := .FAILED, filledAmount := 0, averagePrice := 0,
          error := some createErr }),
      [], trades.length, 0⟩
  else
    let results := postedResults env trades
    if results.any (fun r => r.status = OrderStatus.FAILED) then
      let successfulOrders := results.filter
        (fun r => r.status = OrderStatus.FILLED ∨ r.status = OrderStatus.PENDING)
      let cancelled := (successfulOrders.filter (fun r => r.orderId ≠ "")).map (·.orderId)
      ⟨results.map (fun r => { r with status := .FAILED, error := some rollbackErr }),
        cancelled, trades.length, trades.length⟩
    else
      ⟨results, [], trades.length, trades.length⟩

end OrderExecutor

/-! ## Theorems -/

section Claims

open OrderExecutor

/-- C1: if every leg passes pre-validation and order creation, and at least
one posted order maps to FAILED, then `executeTrades` issues cancellations
for exactly the legs whose posted result is FILLED or PENDING with a
non-empty order id, and returns every leg of the batch marked FAILED with
the atomic-rollback reason. -/
theorem executeTrades_atomic_rollback (env : ExecEnv) (trades : List Trade)
    (hne : trades ≠ [])
    (hfill : trades.all (fun t => checkFillable env t (applySlippageLimit env t)) = true)
    (hcreate : (List.range trades.length).all env.createOk = true)
    (hfail : (postedResults env trades).any (fun r => r.status = OrderStatus.FAILED) = true) :
    (executeTrades env trades).cancelled =
      (((postedResults env trades).filter
          (fun r => r.status = OrderStatus.FILLED ∨ r.status = OrderStatus.PENDING)).filter
        (fun r => r.orderId ≠ "")).map (·.orderId) ∧
    (executeTrades env trades).results =
      (postedResults env trades).map
        (fun r => { r with status := OrderStatus.FAILED, error := some rollbackErr }) ∧
    (executeTrades env trades).results.length = trades.length ∧
    ∀ r ∈ (executeTrades env trades).results,
      r.status = OrderStatus.FAILED ∧ r.error = some rollbackErr := by
  have hlen : (postedResults env trades).length = trades.length := by
    simp [postedResults]
  simp only [executeTrades, hne, hfill, hcreate, hfail, not_true_eq_false,
    if_false, if_true, ite_false, ite_true]
  refine ⟨by trivial, by trivial, by simpa using hlen, ?_⟩
  intro r hr
  simp only [List.mem_map] at hr
  obtain ⟨r₀, _, rfl⟩ := hr
  exact ⟨rfl, rfl⟩

/-- Concrete 2-leg batch for the C1 witness: leg 1 posts MATCHED with order
id `ord1`, leg 2 posts FAILED with an empty id. -/
def envC1 : ExecEnv :=
  { book := fun _ => some ⟨[⟨0.5, 1⟩], [⟨0.5, 1⟩]⟩
    maxSlippage := 0
    createOk := fun _ => true
    post := fun i => if i = 0 then ⟨"ord1", "MATCHED"⟩ else ⟨"", "FAILED"⟩ }

def tradeY : Trade :=
  { marketId := "M", tokenId := "Y", side := .BUY, type := .MARKET, price := 0.5, amount := 1 }

def tradeN : Trade :=
  { marketId := "M", tokenId := "N", side := .BUY, type := .MARKET, price := 0.5, amount := 1 }

theorem mapOrderStatus_MATCHED : mapOrderStatus "MATCHED" = OrderStatus.FILLED := by
  decide

theorem mapOrderStatus_FAILED : mapOrderStatus "FAILED" = OrderStatus.FAILED := by
  decide

theorem limit_envC1 (t : Trade) (hs : t.side = OrderSide.BUY) (hp : t.price = 0.5) :
    applySlippageLimit envC1 t = 0.5 := by
  rw [applySlippageLimit]
  norm_num [envC1, hs, hp, clampPrice, min_def, max_def]

theorem fillable_envC1 (t : Trade) (hs : t.side = OrderSide.BUY) (hp : t.price = 0.5)
    (ha : t.amount = 1) : checkFillable envC1 t (applySlippageLimit envC1 t) = true := by
  rw [limit_envC1 t hs hp, checkFillable]
  norm_num [envC1, hs, ha]

theorem postedResults_envC1 :
    (postedResults envC1 [tradeY, tradeN]).map (fun r => (r.orderId, r.status)) =
      [("ord1", OrderStatus.FILLED), ("", OrderStatus.FAILED)] := by
  simp [postedResults, List.enum, envC1, mapOrderStatus_MATCHED, mapOrderStatus_FAILED]

/-- C1 witness: in the concrete batch, exactly `ord1` is cancelled and both
legs come back FAILED with the rollback reason. -/
theorem executeTrades_atomic_rollback_witness :
    (executeTrades envC1 [tradeY, tradeN]).cancelled = ["ord1"] ∧
    (executeTrades envC1 [tradeY, tradeN]).results.map (fun r => (r.status, r.error)) =
      [(OrderStatus.FAILED, some rollbackErr), (OrderStatus.FAILED, some rollbackErr)] := by
  have h := executeTrades_atomic_rollback envC1 [tradeY, tradeN]
    (by simp)
    (by
      simp only [List.all_cons, List.all_nil, Bool.and_true]
      rw [fillable_envC1 tradeY rfl rfl rfl, fillable_envC1 tradeN rfl rfl rfl]
      rfl)
    (by simp [envC1])
    (by
      simp [postedResults, List.enum, envC1, mapOrderStatus_FAILED])
  refine ⟨?_, ?_⟩
  · rw [h.1]
    simp [postedResults, List.enum, envC1, mapOrderStatus_MATCHED, mapOrderStatus_FAILED]
  · rw [h.2.1]
    simp [postedResults, List.enum, envC1]

/-- C2: if any leg of a batch fails depth pre-validation, `executeTrades`
creates and posts zero orders and returns a FAILED result for every leg. -/
theorem executeTrades_prevalidation_aborts (env : ExecEnv) (trades : List Trade)
    (hbad : ∃ t ∈ trades,
      checkFillable env t (applySlippageLimit env t) = false) :
    (executeTrades env trades).created = 0 ∧
    (executeTrades env trades).posted = 0 ∧
    (executeTrades env trades).results =
      trades.map (fun _ =>
        { orderId := "", status := OrderStatus.FAILED, filledAmount := 0,
          averagePrice := 0, error := some depthErr }) ∧
    (executeTrades env trades).results.length = trades.length ∧
    ∀ r ∈ (executeTrades env trades).results, r.status = OrderStatus.FAILED := by
  obtain ⟨t₀, ht₀, hbad₀⟩ := hbad
  have hne : trades ≠ [] := by
    intro h
    rw [h] at ht₀
    simp at ht₀
  have hall : trades.all (fun t => checkFillable env t (applySlippageLimit env t)) = false := by
    rw [List.all_eq_false]
    exact ⟨t₀, ht₀, by simp [hbad₀]⟩
  rw [executeTrades]
  rw [if_neg hne, if_pos (by simp [hall])]
  refine ⟨rfl, rfl, rfl, by simp, ?_⟩
  intro r hr
  simp only [List.mem_map] at hr
  obtain ⟨_, _, rfl⟩ := hr
  rfl

/-- Environment for the C2 witness: the book for token `N` is empty, so leg 2
of the 2-leg batch fails pre-validation. -/
def envC2 : ExecEnv :=
  { book := fun s => if s = "Y" then some ⟨[⟨0.5, 1⟩], [⟨0.5, 1⟩]⟩ else some ⟨[], []⟩
    maxSlippage := 0
    createOk := fun _ => true
    post := fun _ => ⟨"z", "MATCHED"⟩ }

/-- C2 witness: with leg 2 unfillable, the 2-leg batch creates and posts
nothing and both legs are FAILED. -/
theorem unfillable_envC2 :
    checkFillable envC2 tradeN (applySlippageLimit envC2 tradeN) = false := by
  have hb : envC2.book tradeN.tokenId = some ⟨[], []⟩ := by decide
  rw [checkFillable, hb]
  simp only [tradeN]
  norm_num

theorem executeTrades_prevalidation_aborts_witness :
    (executeTrades envC2 [tradeY, tradeN]).created = 0 ∧
    (executeTrades envC2 [tradeY, tradeN]).posted = 0 ∧
    (executeTrades envC2 [tradeY, tradeN]).results.map (·.status) =
      [OrderStatus.FAILED, OrderStatus.FAILED] := by
  have h := executeTrades_prevalidation_aborts envC2 [tradeY, tradeN]
    ⟨tradeN, by simp, unfillable_envC2⟩
  exact ⟨h.1, h.2.1, by rw [h.2.2.1]; rfl⟩

/-- C3: with risk management enabled and a non-signal opportunity, when the
absolute daily P&L has reached the daily-loss limit and the balance is also
below the required capital, `evaluateOpportunity` rejects with the
daily-loss-limit reason (check 1), not the insufficient-balance reason
(check 2). -/
theorem evaluateOpportunity_dailyLoss_precedes_balance
    (cfg : RiskManager.Config) (dailyPnL : ℚ) (positionsCount : ℕ)
    (opp : Opportunity) (balance : Balance)
    (htr : opp.trades ≠ [])
    (hrm : cfg.enableRiskManagement = true)
    (hdl : |dailyPnL| ≥ cfg.dailyMaxLoss)
    (hbal : balance.usdc < opp.requiredCapital) :
    RiskManager.evaluateOpportunity cfg dailyPnL positionsCount opp balance =
      ⟨false, some RiskManager.Reason.dailyLossLimit, none⟩ := by
  rw [RiskManager.evaluateOpportunity]
  rw [if_neg htr, if_neg (by simp [hrm]), if_pos hdl]

def oppC3 : Opportunity :=
  { id := "o1", strategy := .PRICE_IMBALANCE, marketId := "M",
    expectedProfit := 1, profitPercentage := 10, requiredCapital := 10,
    trades := [tradeY], timestamp := 0, risk := .LOW }

def cfgC3 : RiskManager.Config :=
  { maxPositionSize := 100, minPositionSize := 1, dailyMaxLoss := 50,
    maxConcurrentPositions := 5, enableRiskManagement := true }

/-- C3 witness: daily P&L −60 against a limit of 50, balance 5 against
required capital 10: the reported reason is the daily-loss limit. -/
theorem evaluateOpportunity_dailyLoss_precedes_balance_witness :
    RiskManager.evaluateOpportunity cfgC3 (-60) 0 oppC3 ⟨5, 0⟩ =
      ⟨false, some RiskManager.Reason.dailyLossLimit, none⟩ :=
  evaluateOpportunity_dailyLoss_precedes_balance cfgC3 (-60) 0 oppC3 ⟨5, 0⟩
    (by simp [oppC3]) (by simp [cfgC3]) (by norm_num [cfgC3]) (by norm_num [oppC3])

/-- C5: an opportunity with no trade legs is rejected as signal-only
regardless of configuration (even with risk management disabled), balance,
daily P&L and open positions. -/
theorem evaluateOpportunity_signalOnly_rejected
    (cfg : RiskManager.Config) (dailyPnL : ℚ) (positionsCount : ℕ)
    (opp : Opportunity) (balance : Balance)
    (htr : opp.trades = []) :
    RiskManager.evaluateOpportunity cfg dailyPnL positionsCount opp balance =
      ⟨false, some RiskManager.Reason.signalOnly, none⟩ := by
  rw [RiskManager.evaluateOpportunity, if_pos htr]

def oppC5 : Opportunity :=
  { id := "o2", strategy := .PRICE_IMBALANCE, marketId := "M",
    expectedProfit := 1, profitPercentage := 10, requiredCapital := 10,
    trades := [], timestamp := 0, risk := .LOW }

/-- C5 witness: a signal-only opportunity is rejected even with risk
management disabled and an ample balance. -/
theorem evaluateOpportunity_signalOnly_rejected_witness :
    RiskManager.evaluateOpportunity
      { maxPositionSize := 100, minPositionSize := 1, dailyMaxLoss := 50,
        maxConcurrentPositions := 5, enableRiskManagement := false }
      0 0 oppC5 ⟨1000, 0⟩ =
      ⟨false, some RiskManager.Reason.signalOnly, none⟩ :=
  evaluateOpportunity_signalOnly_rejected _ 0 0 oppC5 ⟨1000, 0⟩ (by simp [oppC5])

/-! ### C4: the 0.49/0.50 price-imbalance scenario -/

/-- The scenario market: YES token `Y`, NO token `N`. -/
def marketC4 : Market :=
  { id := "M", question := "test?", category := "c",
    tokens := [⟨"Y", "Yes", 0.49⟩, ⟨"N", "No", 0.50⟩] }

/-- Quote source for the scenario: best asks 0.49 (YES) and 0.50 (NO), best
bids arbitrary. -/
def envC4 (yb nb : ℚ) : String → Option Quote := fun s =>
  if s = "Y" then some ⟨yb, 0.49⟩
  else if s = "N" then some ⟨nb, 0.50⟩
  else none

theorem envC4_Y (yb nb : ℚ) : envC4 yb nb "Y" = some ⟨yb, 0.49⟩ := by
  simp [envC4]

theorem envC4_N (yb nb : ℚ) : envC4 yb nb "N" = some ⟨nb, 0.50⟩ := by
  simp [envC4]

/-- C4 counterexample: with asks 0.49/0.50 and threshold 0.1%, the detector
emits no executable price-imbalance opportunity at all (the claimed single
opportunity with `requiredCapital = 0.99` does not exist), because the very
fee formula the claim cites gives net profit `0.01 − 0.0198 < 0` while the
gross profit is positive. -/
theorem detectPriceImbalance_scenario_counterexample :
    ((ArbitrageDetector.detectPriceImbalance (envC4 0.48 0.49) (1/10) 0 marketC4).filter
        (fun o => o.trades ≠ [])) = [] ∧
    1 - ((0.49 : ℚ) + 0.50) > 0 ∧
    (1 - ((0.49 : ℚ) + 0.50)) -
        ((0.49 : ℚ) + 0.50) * ArbitrageDetector.TRADING_FEE_RATE * 2 < 0 := by
  refine ⟨?_, by norm_num, by norm_num [ArbitrageDetector.TRADING_FEE_RATE]⟩
  simp only [ArbitrageDetector.detectPriceImbalance, marketC4, envC4_Y, envC4_N]
  norm_num [ArbitrageDetector.TRADING_FEE_RATE]
  intros
  subst_vars
  rfl

/-- C4 amended: for the scenario market (asks 0.49 and 0.50), whatever the
bids, the threshold and the clock, the buy-both branch emits nothing (its
net profit `1 − 0.99 − 0.99·0.01·2 = −0.0098` fails the `netProfit > 0`
check), and the mid-price branch only ever emits signal-only opportunities;
hence no executable opportunity is produced. -/
theorem detectPriceImbalance_scenario_no_executable (yb nb th : ℚ) (now : ℤ) :
    ((ArbitrageDetector.detectPriceImbalance (envC4 yb nb) th now marketC4).filter
        (fun o => o.trades ≠ [])) = [] := by
  simp only [ArbitrageDetector.detectPriceImbalance, marketC4, envC4_Y, envC4_N]
  norm_num [ArbitrageDetector.TRADING_FEE_RATE]
  intros
  subst_vars
  rfl

/-! ### C6: Z-score cases -/

/-- C6: `getZScore` returns no signal below 10 samples; returns exactly 0
when the standard deviation is below 0.001 — equivalently, since
`stdDev = √variance`, when the variance is below 10⁻⁶ — and otherwise
returns `(price − mean) / stdDev` over the current window. -/
theorem getZScore_cases (records : List PriceHistory.PriceRecord) (price : ℚ) :
    PriceHistory.getZScore records price =
      if records.length < 10 then none
      else if PriceHistory.varOf (records.map (·.price)) < 1/1000000 then some 0
      else some (((price : ℚ) - PriceHistory.meanOf (records.map (·.price)) : ℚ) /
        Real.sqrt ((PriceHistory.varOf (records.map (·.price)) : ℚ) : ℝ)) := by
  simp only [PriceHistory.getZScore]
  by_cases h : records.length < 10
  · simp [h]
  · simp only [h, if_false, ite_false]
    have hiff : (Real.sqrt ((PriceHistory.varOf (records.map (·.price)) : ℚ) : ℝ) <
        1/1000) ↔ PriceHistory.varOf (records.map (·.price)) < 1/1000000 := by
      rw [Real.sqrt_lt' (by norm_num : (0:ℝ) < 1/1000)]
      rw [show ((1:ℝ)/1000) ^ 2 = (((1/1000000 : ℚ)) : ℝ) by norm_num]
      exact Rat.cast_lt
    rw [if_congr hiff rfl rfl]
    rcongr
    push_cast
    ring

/-! ### C7: cross-market similarity opportunities -/

/-- Ids minted by `checkSimilarMarketArbitrage` carry the
`crossmarket_similar_` tag; nested ids do not. -/
theorem similar_tag_mismatch (rest : List Char) :
    "crossmarket_similar_".data.isPrefixOf ("crossmarket_nested_".data ++ rest) = false :=
  rfl

theorem similar_tag_match (rest : List Char) :
    "crossmarket_similar_".data.isPrefixOf ("crossmarket_similar_".data ++ rest) = true := by
  rw [List.isPrefixOf_iff_prefix]
  exact List.prefix_append _ _

/-- An opportunity is "price-divergence flagged" iff its id carries the
`crossmarket_similar_` tag minted by `checkSimilarMarketArbitrage`. -/
def similarTagged (o : Opportunity) : Bool :=
  "crossmarket_similar_".data.isPrefixOf o.id.data

/-- Opportunities from the nested-market branch never carry the
price-divergence (`crossmarket_similar_`) tag. -/
theorem checkNested_no_similar_tag (env : String → Option Quote) (th : ℚ) (now : ℤ)
    (m1 m2 : Market) (i1 i2 : ArbitrageDetector.QuestionInfo) :
    (ArbitrageDetector.checkNestedMarketArbitrage env th now m1 m2 i1 i2).filter
      similarTagged = [] := by
  rw [ArbitrageDetector.checkNestedMarketArbitrage]
  repeat' split
  all_goals try rfl
  all_goals
    rw [List.filter_eq_nil_iff]
    intro a ha
    simp only [] at ha
    split at ha
    case isTrue =>
      split at ha
      case isTrue =>
        simp only [List.mem_singleton] at ha
        subst ha
        simp only [similarTagged, String.data_append, List.append_assoc]
        rw [similar_tag_mismatch]
        simp
      case isFalse => simp at ha
    case isFalse => simp at ha

/-- Every opportunity from the similar-market branch carries the
price-divergence tag, so the tag filter is the identity there. -/
theorem checkSimilar_all_similar_tag (env : String → Option Quote) (th : ℚ) (now : ℤ)
    (m1 m2 : Market) :
    (ArbitrageDetector.checkSimilarMarketArbitrage env th now m1 m2).filter
      similarTagged =
      ArbitrageDetector.checkSimilarMarketArbitrage env th now m1 m2 := by
  rw [ArbitrageDetector.checkSimilarMarketArbitrage]
  repeat' split
  all_goals try rfl
  all_goals
    rw [List.filter_eq_self]
    intro a ha
    simp only [] at ha
    split at ha
    case isTrue =>
      simp only [List.mem_singleton] at ha
      subst ha
      simp only [similarTagged, String.data_append, List.append_assoc]
      rw [similar_tag_match]
    case isFalse => simp at ha

/-- C7 (amended form): for a pair of distinct markets whose questions BOTH
parse to asset/direction/threshold triples (a precondition the source
imposes before any similarity check) and whose first tokens both have
quotes, the pair contributes a price-divergence (similar-market)
opportunity iff the Jaccard similarity lies strictly in (0.7, 0.95) and the
absolute mid-price gap, in percentage points, is at least twice the profit
threshold; any such opportunity is signal-only (empty trades) and HIGH
risk.  Market category is never consulted. -/
theorem detectCrossMarketPair_similar_iff (env : String → Option Quote) (th : ℚ)
    (now : ℤ) (m1 m2 : Market) (tk1 tk2 : Token) (q1 q2 : Quote)
    (hid : m1.id ≠ m2.id)
    (hp1 : (ArbitrageDetector.parseMarketQuestion m1.question).isSome = true)
    (hp2 : (ArbitrageDetector.parseMarketQuestion m2.question).isSome = true)
    (ht1 : m1.tokens.head? = some tk1)
    (ht2 : m2.tokens.head? = some tk2)
    (hq1 : env tk1.tokenId = some q1)
    (hq2 : env tk2.tokenId = some q2) :
    ((ArbitrageDetector.detectCrossMarketPair env th now m1 m2).filter similarTagged ≠ [] ↔
      (0.7 < ArbitrageDetector.calculateSimilarity m1.question m2.question ∧
       ArbitrageDetector.calculateSimilarity m1.question m2.question < 0.95 ∧
       |midPrice q1 - midPrice q2| * 100 ≥ th * 2)) ∧
    ∀ o ∈ (ArbitrageDetector.detectCrossMarketPair env th now m1 m2).filter similarTagged,
      o.trades = [] ∧ o.risk = RiskLevel.HIGH := by
  obtain ⟨i1, hp1'⟩ := Option.isSome_iff_exists.mp hp1
  obtain ⟨i2, hp2'⟩ := Option.isSome_iff_exists.mp hp2
  have hid2 : (m2.id = m1.id) = False := eq_false (fun h => hid h.symm)
  have hcs : ArbitrageDetector.checkSimilarMarketArbitrage env th now m1 m2 =
      if |midPrice q1 - midPrice q2| * 100 ≥ th * 2 then
        [{ id := "crossmarket_similar_" ++ m1.id ++ "_" ++ m2.id ++ "_" ++ toString now
           strategy := .CROSS_MARKET
           marketId := m1.id
           expectedProfit := |midPrice q1 - midPrice q2|
           profitPercentage := |midPrice q1 - midPrice q2| * 100
           requiredCapital := 2
           trades := []
           timestamp := now
           risk := .HIGH }]
      else [] := by
    rw [ArbitrageDetector.checkSimilarMarketArbitrage, ht1, ht2]
    simp only [hq1, hq2, midPrice]
  have hpair : (ArbitrageDetector.detectCrossMarketPair env th now m1 m2).filter
      similarTagged =
      if 0.7 < ArbitrageDetector.calculateSimilarity m1.question m2.question ∧
          ArbitrageDetector.calculateSimilarity m1.question m2.question < 0.95 then
        (ArbitrageDetector.checkSimilarMarketArbitrage env th now m1 m2).filter
          similarTagged
      else [] := by
    rw [ArbitrageDetector.detectCrossMarketPair]
    simp only [hp1', hid2, ite_false, hp2']
    rw [List.filter_append,
      apply_ite (List.filter similarTagged),
      apply_ite (List.filter similarTagged),
      checkNested_no_similar_tag, List.filter_nil, ite_self, List.nil_append]
  rw [hpair, checkSimilar_all_similar_tag, hcs]
  constructor
  · by_cases hsim : 0.7 < ArbitrageDetector.calculateSimilarity m1.question m2.question ∧
        ArbitrageDetector.calculateSimilarity m1.question m2.question < 0.95
    · rw [if_pos hsim]
      by_cases hgap : |midPrice q1 - midPrice q2| * 100 ≥ th * 2
      · simp [hgap, hsim.1, hsim.2]
      · simp [hgap, fun h2 h3 => hgap]
    · rw [if_neg hsim]
      constructor
      · intro h
        exact absurd rfl h
      · intro h
        exact absurd ⟨h.1, h.2.1⟩ hsim
  · intro o ho
    by_cases hsim : 0.7 < ArbitrageDetector.calculateSimilarity m1.question m2.question ∧
        ArbitrageDetector.calculateSimilarity m1.question m2.question < 0.95
    · rw [if_pos hsim] at ho
      by_cases hgap : |midPrice q1 - midPrice q2| * 100 ≥ th * 2
      · rw [if_pos hgap] at ho
        simp only [List.mem_singleton] at ho
        subst ho
        exact ⟨rfl, rfl⟩
      · rw [if_neg hgap] at ho
        simp at ho
    · rw [if_neg hsim] at ho
      simp at ho

def qX1 : String := "team alpha wins the final game tonight"

def qX2 : String := "team alpha wins the final game today"

def mX1 : Market :=
  { id := "cx1", question := qX1, category := "sports", tokens := [⟨"x1", "Yes", 0.1⟩] }

def mX2 : Market :=
  { id := "cx2", question := qX2, category := "sports", tokens := [⟨"x2", "Yes", 0.9⟩] }

def envX : String → Option Quote := fun s =>
  if s = "x1" then some ⟨0.1, 0.1⟩
  else if s = "x2" then some ⟨0.9, 0.9⟩
  else none

theorem simX : ArbitrageDetector.calculateSimilarity qX1 qX2 = 3/4 := by
  have hi : ((ArbitrageDetector.jsSplitWS (ArbitrageDetector.lowerChars qX1.data)).dedup.filter
      (fun w => w ∈ (ArbitrageDetector.jsSplitWS (ArbitrageDetector.lowerChars qX2.data)).dedup)).length
      = 6 := by decide
  have hu : (((ArbitrageDetector.jsSplitWS (ArbitrageDetector.lowerChars qX1.data)).dedup ++
      (ArbitrageDetector.jsSplitWS (ArbitrageDetector.lowerChars qX2.data)).dedup).dedup).length
      = 8 := by decide
  simp only [ArbitrageDetector.calculateSimilarity]
  rw [hi, hu]
  norm_num

/-- C7 counterexample: two distinct same-category markets whose questions'
Jaccard similarity is 3/4 ∈ (0.7, 0.95), with live quotes showing a
mid-price gap of 0.8 — exceeding twice the 0.1 profit threshold on any
reading of the units — yet the cross-market strategy flags nothing, because
neither question parses to an asset/direction/threshold triple and the
source returns before any similarity check. -/
theorem detectCrossMarketPair_similar_counterexample :
    mX1.category = mX2.category ∧ mX1.id ≠ mX2.id ∧
    0.7 < ArbitrageDetector.calculateSimilarity mX1.question mX2.question ∧
    ArbitrageDetector.calculateSimilarity mX1.question mX2.question < 0.95 ∧
    envX "x1" = some ⟨0.1, 0.1⟩ ∧ envX "x2" = some ⟨0.9, 0.9⟩ ∧
    |midPrice ⟨0.1, 0.1⟩ - midPrice ⟨0.9, 0.9⟩| > 2 * (1/10 : ℚ) ∧
    |midPrice ⟨0.1, 0.1⟩ - midPrice ⟨0.9, 0.9⟩| * 100 ≥ (1/10 : ℚ) * 2 ∧
    ArbitrageDetector.detectCrossMarketPair envX (1/10) 0 mX1 mX2 = [] := by
  have habs : |midPrice (⟨0.1, 0.1⟩ : Quote) - midPrice (⟨0.9, 0.9⟩ : Quote)| = 4/5 := by
    rw [midPrice, midPrice]
    rw [show ((0.1:ℚ) + 0.1)/2 - ((0.9:ℚ) + 0.9)/2 = -(4/5) by norm_num]
    rw [abs_neg, abs_of_nonneg (by norm_num : (0:ℚ) ≤ 4/5)]
  refine ⟨rfl, by decide, ?_, ?_, rfl, rfl, ?_, ?_, ?_⟩
  · rw [show mX1.question = qX1 from rfl, show mX2.question = qX2 from rfl, simX]
    norm_num
  · rw [show mX1.question = qX1 from rfl, show mX2.question = qX2 from rfl, simX]
    norm_num
  · rw [habs]
    norm_num
  · rw [habs]
    norm_num
  · rfl

def qW1 : String := "btc above 50 this very week"

def qW2 : String := "btc above 50 this very month"

def mW1 : Market :=
  { id := "w1", question := qW1, category := "crypto", tokens := [⟨"t1", "Yes", 0.2⟩] }

def mW2 : Market :=
  { id := "w2", question := qW2, category := "crypto", tokens := [⟨"t2", "Yes", 0.8⟩] }

def envW : String → Option Quote := fun s =>
  if s = "t1" then some ⟨0.2, 0.2⟩
  else if s = "t2" then some ⟨0.8, 0.8⟩
  else none

theorem simW : ArbitrageDetector.calculateSimilarity qW1 qW2 = 5/7 := by
  have hi : ((ArbitrageDetector.jsSplitWS (ArbitrageDetector.lowerChars qW1.data)).dedup.filter
      (fun w => w ∈ (ArbitrageDetector.jsSplitWS (ArbitrageDetector.lowerChars qW2.data)).dedup)).length
      = 5 := by decide
  have hu : (((ArbitrageDetector.jsSplitWS (ArbitrageDetector.lowerChars qW1.data)).dedup ++
      (ArbitrageDetector.jsSplitWS (ArbitrageDetector.lowerChars qW2.data)).dedup).dedup).length
      = 7 := by decide
  simp only [ArbitrageDetector.calculateSimilarity]
  rw [hi, hu]
  norm_num

/-- C7 witness: two parseable, 5/7-similar questions with a 0.6 mid-price
gap and threshold 1% do get a price-divergence opportunity flagged. -/
theorem detectCrossMarketPair_similar_iff_witness :
    (ArbitrageDetector.detectCrossMarketPair envW 1 0 mW1 mW2).filter similarTagged ≠ [] := by
  have h := detectCrossMarketPair_similar_iff envW 1 0 mW1 mW2
    ⟨"t1", "Yes", 0.2⟩ ⟨"t2", "Yes", 0.8⟩ ⟨0.2, 0.2⟩ ⟨0.8, 0.8⟩
    (by decide) (by decide) (by decide) rfl rfl rfl rfl
  have habs : |midPrice (⟨0.2, 0.2⟩ : Quote) - midPrice (⟨0.8, 0.8⟩ : Quote)| = 3/5 := by
    rw [midPrice, midPrice]
    rw [show ((0.2:ℚ) + 0.2)/2 - ((0.8:ℚ) + 0.8)/2 = -(3/5) by norm_num]
    rw [abs_neg, abs_of_nonneg (by norm_num : (0:ℚ) ≤ 3/5)]
  refine h.1.mpr ⟨?_, ?_, ?_⟩
  · rw [show mW1.question = qW1 from rfl, show mW2.question = qW2 from rfl, simW]
    norm_num
  · rw [show mW1.question = qW1 from rfl, show mW2.question = qW2 from rfl, simW]
    norm_num
  · rw [habs]
    norm_num

/-! ### C8: recordTrade on failure -/

def stC8 : RiskManager.RecordState :=
  { dailyPnL := 1
    stats := { totalTrades := 1, successfulTrades := 1, failedTrades := 0,
               totalProfit := 1, totalLoss := 0, netProfit := 1, winRate := 100,
               averageProfit := 1, largestProfit := 1, largestLoss := 0, dailyPnL := 1 } }

/-- C8 counterexample: from the (reachable) state after one successful 1.0
profit trade, `recordTrade(0, false)` changes the total-trades counter (1→2)
and the win rate (100→50), contradicting the claim that only the
failed-trades counter changes. -/
theorem recordTrade_failure_counterexample :
    (RiskManager.recordTrade stC8 0 false).stats.totalTrades ≠ stC8.stats.totalTrades ∧
    (RiskManager.recordTrade stC8 0 false).stats.winRate ≠ stC8.stats.winRate ∧
    (RiskManager.recordTrade stC8 0 false).stats.failedTrades =
      stC8.stats.failedTrades + 1 := by
  norm_num [RiskManager.recordTrade, stC8]

/-- C8 amended: on `recordTrade(profit, success = false)` both the
total-trades and failed-trades counters increment; the success counter, the
gross profit/loss accumulators, the largest-profit/loss marks and the daily
P&L accumulator are unchanged; and the derived net profit, win rate (with
the new, larger denominator), average profit and stats daily-P&L field are
recomputed from the unchanged accumulators. -/
theorem recordTrade_failure_frame (s : RiskManager.RecordState) (profit : ℚ) :
    (RiskManager.recordTrade s profit false).dailyPnL = s.dailyPnL ∧
    (RiskManager.recordTrade s profit false).stats.totalTrades = s.stats.totalTrades + 1 ∧
    (RiskManager.recordTrade s profit false).stats.failedTrades = s.stats.failedTrades + 1 ∧
    (RiskManager.recordTrade s profit false).stats.successfulTrades = s.stats.successfulTrades ∧
    (RiskManager.recordTrade s profit false).stats.totalProfit = s.stats.totalProfit ∧
    (RiskManager.recordTrade s profit false).stats.totalLoss = s.stats.totalLoss ∧
    (RiskManager.recordTrade s profit false).stats.largestProfit = s.stats.largestProfit ∧
    (RiskManager.recordTrade s profit false).stats.largestLoss = s.stats.largestLoss ∧
    (RiskManager.recordTrade s profit false).stats.netProfit =
      s.stats.totalProfit - s.stats.totalLoss ∧
    (RiskManager.recordTrade s profit false).stats.winRate =
      (s.stats.successfulTrades : ℚ) / ((s.stats.totalTrades : ℚ) + 1) * 100 ∧
    (RiskManager.recordTrade s profit false).stats.averageProfit =
      (if 0 < s.stats.successfulTrades then
        (s.stats.totalProfit - s.stats.totalLoss) / (s.stats.successfulTrades : ℚ)
       else 0) ∧
    (RiskManager.recordTrade s profit false).stats.dailyPnL = s.dailyPnL := by
  simp [RiskManager.recordTrade, Nat.cast_add, Nat.cast_one]

/-! ### C9: record does not deduplicate -/

/-- C9: for a window of at most 58 in-window samples, recording the same
price twice at the same instant grows the stored sample list by exactly 2,
and `getStats` counts both copies. -/
theorem record_twice_no_dedup (records : List PriceHistory.PriceRecord)
    (price : ℚ) (now : ℤ)
    (hwin : ∀ r ∈ records, now - PriceHistory.HISTORY_WINDOW_MS < r.timestamp)
    (hlen : records.length ≤ 58) :
    (PriceHistory.record (PriceHistory.record records price now) price now).length =
      records.length + 2 ∧
    (PriceHistory.getStats
        (PriceHistory.record (PriceHistory.record records price now) price now)).count =
      records.length + 2 := by
  have key : ∀ l : List PriceHistory.PriceRecord,
      (∀ r ∈ l, now - PriceHistory.HISTORY_WINDOW_MS < r.timestamp) →
      l.length ≤ 59 →
      PriceHistory.record l price now =
        l ++ [({ price := price, timestamp := now } : PriceHistory.PriceRecord)] := by
    intro l hl hlen'
    rw [PriceHistory.record, PriceHistory.cleanOldRecords]
    have hfilter : (l ++ [({ price := price, timestamp := now } : PriceHistory.PriceRecord)]).filter
        (fun r => decide (now - PriceHistory.HISTORY_WINDOW_MS < r.timestamp)) =
        l ++ [({ price := price, timestamp := now } : PriceHistory.PriceRecord)] := by
      rw [List.filter_eq_self]
      intro r hr
      rcases List.mem_append.mp hr with h | h
      · simpa using hl r h
      · simp only [List.mem_singleton] at h
        subst h
        simp [PriceHistory.HISTORY_WINDOW_MS]
    rw [hfilter, PriceHistory.sliceLast]
    have hz : (l ++ [({ price := price, timestamp := now } : PriceHistory.PriceRecord)]).length -
        PriceHistory.MAX_HISTORY_SIZE = 0 := by
      simp only [List.length_append, List.length_singleton, PriceHistory.MAX_HISTORY_SIZE]
      omega
    rw [hz, List.drop_zero]
  have h1 : PriceHistory.record records price now =
      records ++ [({ price := price, timestamp := now } : PriceHistory.PriceRecord)] :=
    key records hwin (by omega)
  have h2 : PriceHistory.record
      (records ++ [({ price := price, timestamp := now } : PriceHistory.PriceRecord)]) price now =
      records ++ [({ price := price, timestamp := now } : PriceHistory.PriceRecord)] ++
        [({ price := price, timestamp := now } : PriceHistory.PriceRecord)] := by
    refine key _ ?_ (by simp; omega)
    intro r hr
    rcases List.mem_append.mp hr with h | h
    · exact hwin r h
    · simp only [List.mem_singleton] at h
      subst h
      simp [PriceHistory.HISTORY_WINDOW_MS]
  rw [h1, h2]
  constructor
  · simp
  · rw [PriceHistory.getStats]
    rw [if_neg (by simp)]
    simp

def recordsC9 : List PriceHistory.PriceRecord :=
  [⟨0.5, 1000⟩, ⟨0.52, 2000⟩]

/-- C9 witness: two in-window samples, then two identical `record` calls at
the same timestamp: the stored count and `getStats().count` both become 4. -/
theorem record_twice_no_dedup_witness :
    (PriceHistory.record (PriceHistory.record recordsC9 0.7 3000) 0.7 3000).length = 4 ∧
    (PriceHistory.getStats
        (PriceHistory.record (PriceHistory.record recordsC9 0.7 3000) 0.7 3000)).count = 4 := by
  have h := record_twice_no_dedup recordsC9 0.7 3000
    (by
      intro r hr
      simp only [recordsC9, List.mem_cons, List.mem_singleton] at hr
      rcases hr with rfl | rfl | h
      · norm_num [PriceHistory.HISTORY_WINDOW_MS]
      · norm_num [PriceHistory.HISTORY_WINDOW_MS]
      · simp at h)
    (by simp [recordsC9])
  simpa [recordsC9] using h

/-! ### C10: getBestPrices totality and empty-side substitution -/

/-- C10: when the order book is available `getBestPrices` never returns
null; an empty bid side is substituted by bid 0 and an empty ask side by
ask 1; null arises only from an unavailable book; and a fully empty book
yields the quote ⟨0, 1⟩ whose strategy mid-price is 0.5. -/
theorem getBestPrices_empty_side_defaults (b : OrderBook) :
    (MarketDataService.getBestPrices (some b)).isSome = true ∧
    MarketDataService.getBestPrices (none : Option OrderBook) = none ∧
    (b.bids = [] → ∀ q, MarketDataService.getBestPrices (some b) = some q → q.bid = 0) ∧
    (b.asks = [] → ∀ q, MarketDataService.getBestPrices (some b) = some q → q.ask = 1) ∧
    (b.bids = [] → b.asks = [] →
      MarketDataService.getBestPrices (some b) = some ⟨0, 1⟩ ∧ midPrice ⟨0, 1⟩ = 1/2) := by
  refine ⟨by simp [MarketDataService.getBestPrices], rfl, ?_, ?_, ?_⟩
  · intro hb q hq
    simp [MarketDataService.getBestPrices, hb] at hq
    subst hq
    simp
  · intro ha q hq
    simp [MarketDataService.getBestPrices, ha] at hq
    subst hq
    simp
  · intro hb ha
    refine ⟨by simp [MarketDataService.getBestPrices, hb, ha], ?_⟩
    rw [midPrice]
    norm_num

/-- C10 witness: the fully empty order book produces the quote ⟨0, 1⟩ and
mid-price 1/2. -/
theorem getBestPrices_empty_side_defaults_witness :
    MarketDataService.getBestPrices (some ⟨[], []⟩) = some ⟨0, 1⟩ ∧
    midPrice ⟨0, 1⟩ = 1/2 :=
  (getBestPrices_empty_side_defaults ⟨[], []⟩).2.2.2.2 rfl rfl

end Claims
